import Mathlib

/-
Shallow embedding of the e-commerce backend (src/main.py, src/models.py).

Modelling conventions:
  * MongoDB ObjectIds are modelled as natural numbers; the store assigns them from a
    counter (`nextProductId` / `nextOrderId`), mirroring the fact that `insert_one`
    always generates a fresh identifier.  A raw request-side `productId` is a `String`
    and parses as an ObjectId exactly when it is a 24-character hexadecimal string,
    as `bson.ObjectId` accepts for `str` input.
  * Python floats are modelled as exact rationals `ℚ`.
  * The two MongoDB collections are lists of documents inside a single `State`;
    `insert_one` is list append; `find` with a filter is `List.filter`;
    `.sort("_id", 1)` is `List.mergeSort` by id; `.skip`/`.limit` are `drop`/`take`.
  * The aggregation pipeline of `get_user_orders` is modelled stage by stage:
    `$match`/`$sort`/`$skip`/`$limit` select the raw page; `$unwind items` +
    `$lookup` + `$unwind itemProductDetails` become `enrichItems` (a `flatMap`
    over the per-item lookup results, so an item whose lookup array is empty
    contributes no row); `$group` by order id over the contiguous row stream
    re-assembles per order, an order with no surviving rows producing no group
    at all.  MongoDB leaves the output ORDER of `$group` undefined and the
    pipeline has no `$sort` after it: the admissible aggregation results are
    the permutations of the groups (`groupOutputs`), and `get_user_orders`
    computes the one representative whose groups come in page order.
-/

namespace ECom

structure ProductSize where
  size : String
  quantity : Int
  deriving DecidableEq

/-- Raw body of `POST /products` (src/models.py `ProductCreate`); `quantity` is an
unconstrained integer here, validation (`gt=0` on price, `ge=0` on quantity) being
applied by `validProductCreate`. -/
structure ProductCreate where
  name : String
  price : ℚ
  sizes : List ProductSize
  deriving DecidableEq

/-- A stored product document (the dict inserted by `create_product`). -/
structure Product where
  id : Nat
  name : String
  price : ℚ
  sizes : List ProductSize
  deriving DecidableEq

/-- Raw order line of `POST /orders` (src/models.py `OrderItemRequest`). -/
structure OrderItemRequest where
  productId : String
  qty : Nat
  deriving DecidableEq

/-- Raw body of `POST /orders` (src/models.py `OrderCreate`). -/
structure OrderCreate where
  userId : String
  items : List OrderItemRequest
  deriving DecidableEq

/-- A stored order line (`order_items_to_store` entry in src/main.py lines 165-169). -/
structure StoredOrderItem where
  productId : Nat
  qty : Nat
  price_at_order : ℚ
  deriving DecidableEq

/-- A stored order document (`order_dict` in src/main.py lines 172-178). -/
structure Order where
  id : Nat
  userId : String
  items : List StoredOrderItem
  total : ℚ
  status : String
  deriving DecidableEq

/-- The two MongoDB collections plus the id generators. -/
structure State where
  products : List Product
  nextProductId : Nat
  orders : List Order
  nextOrderId : Nat
  deriving DecidableEq

/-- Error taxonomy of the handlers (the `HTTPException`s raised in src/main.py). -/
inductive Err where
  | validationError
  | invalidId (pid : String)
  | notFound (pid : String)
  deriving DecidableEq

/-- HTTP status attached to each error: 422 is FastAPI's body-validation status,
400 and 404 are the codes of src/main.py lines 156 and 160. -/
def statusOf : Err → Nat
  | .validationError => 422
  | .invalidId _ => 400
  | .notFound _ => 404

/-- Pagination block of both list responses (src/models.py `PaginationInfo`);
`next`/`previous` are the `str(...)`-rendered offsets or `None`. -/
structure PaginationInfo where
  next : Option String
  limit : Nat
  previous : Option String
  deriving DecidableEq

structure ProductListingItem where
  id : Nat
  name : String
  price : ℚ
  deriving DecidableEq

structure ProductListResponse where
  data : List ProductListingItem
  page : PaginationInfo
  deriving DecidableEq

structure ProductDetailsInOrder where
  id : Nat
  name : String
  deriving DecidableEq

structure OrderItemResponse where
  productDetails : ProductDetailsInOrder
  qty : Nat
  deriving DecidableEq

structure OrderResponse where
  id : Nat
  items : List OrderItemResponse
  total : ℚ
  deriving DecidableEq

structure OrderListResponse where
  data : List OrderResponse
  page : PaginationInfo
  deriving DecidableEq

/-- Is `c` a hexadecimal digit? -/
def isHexDigitChar (c : Char) : Bool :=
  c.isDigit || ('a' ≤ c && c ≤ 'f') || ('A' ≤ c && c ≤ 'F')

def hexCharVal (c : Char) : Nat :=
  if c.isDigit then c.toNat - Char.toNat '0'
  else if 'a' ≤ c && c ≤ 'f' then c.toNat - Char.toNat 'a' + 10
  else c.toNat - Char.toNat 'A' + 10

/-- Embeds `ObjectId(item_request.productId)` (src/main.py line 154): a string parses
as a store identifier exactly when it is a 24-character hexadecimal string; the
parsed identifier is the denoted number. -/
def parseObjectId (pid : String) : Option Nat :=
  if pid.length = 24 && pid.data.all isHexDigitChar then
    some (pid.data.foldl (fun acc c => acc * 16 + hexCharVal c) 0)
  else none

/-- Pydantic validation of `ProductCreate` (src/models.py lines 27-34):
`price` must satisfy `gt=0` and every size `quantity` must satisfy `ge=0`. -/
def validProductCreate (p : ProductCreate) : Bool :=
  (0 < p.price : Bool) && p.sizes.all (fun e => (0 ≤ e.quantity : Bool))

/-- `POST /products` (src/main.py `create_product`): on valid input, insert the
document and return the fresh identifier; invalid bodies are rejected by the
framework's validation before the handler runs. -/
def create_product (s : State) (p : ProductCreate) : Except Err (Nat × State) :=
  if validProductCreate p then
    let pid := s.nextProductId
    .ok (pid,
      { s with
        products := s.products ++ [{ id := pid, name := p.name, price := p.price, sizes := p.sizes }],
        nextProductId := pid + 1 })
  else .error .validationError

def strLower (t : String) : String := t.map Char.toLower

/-- Is `pat` a contiguous sublist of `hay`? -/
def listContainsSub (pat : List Char) : List Char → Bool
  | [] => pat.isEmpty
  | c :: t => pat.isPrefixOf (c :: t) || listContainsSub pat t

/-- Embeds the name filter `{"$regex": re.escape(name), "$options": "i"}`
(src/main.py line 99): case-insensitive substring match. -/
def containsCI (hay pat : String) : Bool :=
  listContainsSub (strLower pat).data (strLower hay).data

/-- The `name` query filter: only applied when the parameter is a non-empty
string (`if name:` in src/main.py line 97). -/
def matchesName (nameF : Option String) (p : Product) : Bool :=
  match nameF with
  | none => true
  | some f => if f = "" then true else containsCI p.name f

/-- The `size` query filter `{"sizes.size": size}` (src/main.py line 104): a product
matches when some entry of its `sizes` array has that `size`; only applied when the
parameter is a non-empty string (`if size:` in line 101). -/
def matchesSize (sizeF : Option String) (p : Product) : Bool :=
  match sizeF with
  | none => true
  | some f => if f = "" then true else p.sizes.any (fun e => e.size == f)

def productLE (a b : Product) : Bool := a.id ≤ b.id

def orderLE (a b : Order) : Bool := a.id ≤ b.id

/-- Pagination metadata computed identically in both list handlers
(src/main.py lines 121-134 and 258-268). -/
def mkPageInfo (count limit offset : Nat) : PaginationInfo :=
  let next_offset : Option Int := if count = limit then some ((offset : Int) + (limit : Int)) else none
  let previous_offset : Option Int :=
    if offset = 0 then none
    else if (offset : Int) - (limit : Int) ≥ 0 then some ((offset : Int) - (limit : Int))
    else some (-10)
  { next := next_offset.map toString,
    limit := count,
    previous := previous_offset.map toString }

/-- `GET /products` (src/main.py `list_products`): filter, sort by id, skip, limit,
project, and attach pagination metadata. -/
def list_products (s : State) (nameF sizeF : Option String) (limit offset : Nat) :
    ProductListResponse :=
  let filtered := s.products.filter (fun p => matchesName nameF p && matchesSize sizeF p)
  let sorted := filtered.mergeSort productLE
  let pageItems := ((sorted.drop offset).take limit).map
    (fun p => { id := p.id, name := p.name, price := p.price : ProductListingItem })
  { data := pageItems, page := mkPageInfo pageItems.length limit offset }

/-- One step of the validation loop of `create_order` (src/main.py lines 150-169):
`none` when the line passes, `some e` with the raised error otherwise. -/
def lineCheck (P : List Product) (it : OrderItemRequest) : Option Err :=
  match parseObjectId it.productId with
  | none => some (.invalidId it.productId)
  | some pid =>
    match P.find? (fun p => p.id == pid) with
    | none => some (.notFound it.productId)
    | some _ => none

/-- The validated, priced line a passing request line turns into. -/
def lineSpec (P : List Product) (it : OrderItemRequest) : Option StoredOrderItem :=
  match parseObjectId it.productId with
  | none => none
  | some pid =>
    match P.find? (fun p => p.id == pid) with
    | none => none
    | some p => some { productId := pid, qty := it.qty, price_at_order := p.price }

/-- The validation loop of `create_order` (src/main.py lines 147-169): walks the
request lines in order, accumulating the stored lines and the running total,
aborting on the first failing line. -/
def processItems (P : List Product) (total : ℚ) (acc : List StoredOrderItem) :
    List OrderItemRequest → Except Err (List StoredOrderItem × ℚ)
  | [] => .ok (acc, total)
  | it :: rest =>
    match parseObjectId it.productId with
    | none => .error (.invalidId it.productId)
    | some pid =>
      match P.find? (fun p => p.id == pid) with
      | none => .error (.notFound it.productId)
      | some p =>
        processItems P (total + p.price * (it.qty : ℚ))
          (acc ++ [{ productId := pid, qty := it.qty, price_at_order := p.price }]) rest

/-- `POST /orders` (src/main.py `create_order`): validate and price every line
first; only on full success insert the order document (userId, lines, total,
status "pending").  On failure the state is returned untouched. -/
def create_order (s : State) (req : OrderCreate) : Except Err Nat × State :=
  match processItems s.products 0 [] req.items with
  | .error e => (.error e, s)
  | .ok (items, total) =>
    let oid := s.nextOrderId
    (.ok oid,
      { s with
        orders := s.orders ++
          [{ id := oid, userId := req.userId, items := items, total := total, status := "pending" }],
        nextOrderId := oid + 1 })

/-- The HTTP response of `POST /orders`: status code, optional body id, and the
resulting store state (201 from the route decorator, `statusOf` on errors). -/
def http_create_order (s : State) (req : OrderCreate) : Nat × Option Nat × State :=
  match create_order s req with
  | (.ok oid, s2) => (201, some oid, s2)
  | (.error e, s2) => (statusOf e, none, s2)

/-- The raw page of the aggregation pipeline (src/main.py lines 204-208):
`$match` on exact `userId`, `$sort {_id: 1}`, `$skip offset`, `$limit limit`. -/
def userOrdersPage (s : State) (user_id : String) (limit offset : Nat) : List Order :=
  (((s.orders.filter (fun o => o.userId == user_id)).mergeSort orderLE).drop offset).take limit

/-- `$lookup` from products on one unwound line plus the second `$unwind`
(src/main.py lines 210-218): all products whose `_id` equals the line's
`productId`, each paired with the line's `qty`. -/
def lookupDetails (P : List Product) (it : StoredOrderItem) : List OrderItemResponse :=
  (P.filter (fun p => p.id == it.productId)).map
    (fun p => { productDetails := { id := p.id, name := p.name }, qty := it.qty })

/-- `$unwind items` followed by `$lookup`/`$unwind` over a whole order: one output
row per (line, matching product) pair, in line order; a line whose lookup result
is empty contributes nothing. -/
def enrichItems (P : List Product) (items : List StoredOrderItem) : List OrderItemResponse :=
  items.flatMap (lookupDetails P)

/-- `$group` back by order id plus `$project` (src/main.py lines 219-245) for one
order of the page: `none` when no row survived the two unwinds (the order then
forms no group and disappears from the output). -/
def enrichOrder (s : State) (o : Order) : Option OrderResponse :=
  let its := enrichItems s.products o.items
  if its.isEmpty then none
  else some { id := o.id, items := its, total := o.total }

/-- `GET /orders/{user_id}` (src/main.py `get_user_orders`). -/
def get_user_orders (s : State) (user_id : String) (limit offset : Nat) : OrderListResponse :=
  let enriched := (userOrdersPage s user_id limit offset).filterMap (enrichOrder s)
  { data := enriched, page := mkPageInfo enriched.length limit offset }

/-- The HTTP layer of `GET /orders/{user_id}`: the handler only reads, so the
state component is returned unchanged. -/
def http_get_user_orders (s : State) (user_id : String) (limit offset : Nat) :
    OrderListResponse × State :=
  (get_user_orders s user_id limit offset, s)

/-- MongoDB does not define the output order of `$group`, and the pipeline of
src/main.py lines 204-249 has no `$sort` after its `$group` stage, so an
admissible result of the aggregation is any permutation of the page's groups;
`get_user_orders` computes the particular admissible result whose groups come in
page order. -/
def groupOutputs (s : State) (user_id : String) (limit offset : Nat)
    (out : List OrderResponse) : Prop :=
  out.Perm ((userOrdersPage s user_id limit offset).filterMap (enrichOrder s))

/-- Modelled from the spec: the repository has no product-update endpoint, so the
"later change to the product's price" of §3/§8 is modelled as a direct in-place
mutation of the product collection. -/
def updatePrice (s : State) (pid : Nat) (newPrice : ℚ) : State :=
  { s with
    products := s.products.map (fun p => if p.id = pid then { p with price := newPrice } else p) }

/-! Concrete fixtures used by the witness theorems. -/

def stateEmpty : State := { products := [], nextProductId := 0, orders := [], nextOrderId := 0 }

def prodW : Product := { id := 0, name := "Hoodie", price := 2, sizes := [] }

/-- A store holding one product with identifier 0 and price 2. -/
def stateP : State := { products := [prodW], nextProductId := 1, orders := [], nextOrderId := 0 }

/-- The 24-character hexadecimal rendering of identifier 0. -/
def oidStr : String := "000000000000000000000000"

def reqW : OrderCreate := { userId := "u1", items := [{ productId := oidStr, qty := 3 }] }

/-- The state expected after `create_order stateP reqW`. -/
def statePAfter : State :=
  { products := [prodW], nextProductId := 1,
    orders := [{ id := 0, userId := "u1",
                 items := [{ productId := 0, qty := 3, price_at_order := 2 }],
                 total := 6, status := "pending" }],
    nextOrderId := 1 }

def reqBad : OrderCreate := { userId := "u1", items := [{ productId := "zz", qty := 1 }] }

def pcW : ProductCreate := { name := "Hoodie", price := 2, sizes := [] }

def ordA : Order :=
  { id := 0, userId := "u1",
    items := [{ productId := 0, qty := 2, price_at_order := 2 }],
    total := 4, status := "pending" }

def ordB : Order :=
  { id := 1, userId := "u1",
    items := [{ productId := 0, qty := 1, price_at_order := 2 }],
    total := 2, status := "pending" }

/-- A store with one product (id 0) and two stored orders for user "u1". -/
def stateO2 : State :=
  { products := [prodW], nextProductId := 1, orders := [ordA, ordB], nextOrderId := 2 }

/-- The enriched record of `ordA`. -/
def respA : OrderResponse :=
  { id := 0, items := [{ productDetails := { id := 0, name := "Hoodie" }, qty := 2 }],
    total := 4 }

/-- The enriched record of `ordB`. -/
def respB : OrderResponse :=
  { id := 1, items := [{ productDetails := { id := 0, name := "Hoodie" }, qty := 1 }],
    total := 2 }

/-! Helper lemmas. -/

theorem productLE_trans (a b c : Product) (hab : productLE a b = true) (hbc : productLE b c = true) :
    productLE a c = true := by
  simp only [productLE, decide_eq_true_eq] at *
  omega

theorem productLE_total (a b : Product) : (productLE a b || productLE b a) = true := by
  simp only [productLE, Bool.or_eq_true, decide_eq_true_eq]
  omega

theorem orderLE_trans (a b c : Order) (hab : orderLE a b = true) (hbc : orderLE b c = true) :
    orderLE a c = true := by
  simp only [orderLE, decide_eq_true_eq] at *
  omega

theorem orderLE_total (a b : Order) : (orderLE a b || orderLE b a) = true := by
  simp only [orderLE, Bool.or_eq_true, decide_eq_true_eq]
  omega

theorem pairwise_window {α : Type} (le : α → α → Bool) (R : α → α → Prop)
    (hR : ∀ a b, le a b = true → R a b)
    (htr : ∀ a b c, le a b = true → le b c = true → le a c = true)
    (hto : ∀ a b, (le a b || le b a) = true)
    (l : List α) (limit offset : Nat) :
    (((l.mergeSort le).drop offset).take limit).Pairwise R := by
  have hs : (l.mergeSort le).Pairwise (fun a b => le a b = true) :=
    List.sorted_mergeSort htr hto l
  have hsub : (((l.mergeSort le).drop offset).take limit).Sublist (l.mergeSort le) :=
    (List.take_sublist _ _).trans (List.drop_sublist _ _)
  exact (List.Pairwise.sublist hsub hs).imp (fun h => hR _ _ h)

theorem pairwise_userOrdersPage (s : State) (user_id : String) (limit offset : Nat) :
    (userOrdersPage s user_id limit offset).Pairwise (fun a b => a.id ≤ b.id) := by
  unfold userOrdersPage
  exact pairwise_window orderLE _
    (fun a b h => by simpa [orderLE] using h) orderLE_trans orderLE_total _ _ _

theorem lineSpec_some_elim (P : List Product) (ir : OrderItemRequest) (line : StoredOrderItem)
    (h : lineSpec P ir = some line) :
    parseObjectId ir.productId = some line.productId ∧ line.qty = ir.qty ∧
    ∃ p ∈ P, p.id = line.productId ∧ line.price_at_order = p.price := by
  unfold lineSpec at h
  cases hp : parseObjectId ir.productId with
  | none => simp [hp] at h
  | some pid =>
    cases hf : P.find? (fun p => p.id == pid) with
    | none => simp [hp, hf] at h
    | some p =>
      simp only [hp, hf, Option.some.injEq] at h
      have hmem : p ∈ P := List.mem_of_find?_eq_some hf
      have hid : p.id = pid := by
        have := List.find?_some hf
        simpa using this
      subst h
      exact ⟨by simp [hp], rfl, p, hmem, by simpa using hid, rfl⟩

theorem forall₂_mem_right {α β : Type} {R : α → β → Prop} {l₁ : List α} {l₂ : List β}
    (h : List.Forall₂ R l₁ l₂) : ∀ b ∈ l₂, ∃ a ∈ l₁, R a b := by
  induction h with
  | nil => simp
  | cons hR hF ih =>
    intro b hb
    rcases List.mem_cons.mp hb with hb | hb
    · subst hb
      exact ⟨_, List.mem_cons_self _ _, hR⟩
    · obtain ⟨a, ha, har⟩ := ih b hb
      exact ⟨a, List.mem_cons_of_mem _ ha, har⟩

theorem processItems_ok_spec (P : List Product) :
    ∀ (items : List OrderItemRequest) (total : ℚ) (acc ris : List StoredOrderItem) (rtot : ℚ),
      processItems P total acc items = .ok (ris, rtot) →
      ∃ newL, ris = acc ++ newL ∧
        List.Forall₂ (fun ir line => lineSpec P ir = some line) items newL ∧
        rtot = total + (newL.map (fun line => line.price_at_order * (line.qty : ℚ))).sum := by
  intro items
  induction items with
  | nil =>
    intro total acc ris rtot h
    simp only [processItems, Except.ok.injEq, Prod.mk.injEq] at h
    exact ⟨[], by simp [h.1], List.Forall₂.nil, by simp [h.2]⟩
  | cons it rest ih =>
    intro total acc ris rtot h
    cases hp : parseObjectId it.productId with
    | none => simp [processItems, hp] at h
    | some pid =>
      cases hf : P.find? (fun p => p.id == pid) with
      | none => simp [processItems, hp, hf] at h
      | some p =>
        simp only [processItems, hp, hf] at h
        obtain ⟨newL, hris, hF, hsum⟩ := ih _ _ _ _ h
        refine ⟨{ productId := pid, qty := it.qty, price_at_order := p.price } :: newL,
          ?_, ?_, ?_⟩
        · simpa using hris
        · exact List.Forall₂.cons (by simp [lineSpec, hp, hf]) hF
        · rw [hsum]
          simp only [List.map_cons, List.sum_cons]
          ring

theorem lineCheck_some_cases (P : List Product) (it : OrderItemRequest) (e : Err)
    (h : lineCheck P it = some e) :
    (e = .invalidId it.productId ∧ parseObjectId it.productId = none) ∨
    (∃ n, e = .notFound it.productId ∧ parseObjectId it.productId = some n ∧
      P.find? (fun p => p.id == n) = none) := by
  unfold lineCheck at h
  cases hp : parseObjectId it.productId with
  | none =>
    simp only [hp, Option.some.injEq] at h
    exact Or.inl ⟨h.symm, rfl⟩
  | some pid =>
    cases hf : P.find? (fun p => p.id == pid) with
    | none =>
      simp only [hp, hf, Option.some.injEq] at h
      exact Or.inr ⟨pid, h.symm, rfl, hf⟩
    | some p => simp [hp, hf] at h

theorem processItems_error_spec (P : List Product) :
    ∀ (items : List OrderItemRequest) (total : ℚ) (acc : List StoredOrderItem) (e : Err),
      processItems P total acc items = .error e →
      ∃ (i : Nat) (it : OrderItemRequest), items[i]? = some it ∧ lineCheck P it = some e ∧
        ∀ (j : Nat) (it2 : OrderItemRequest), j < i → items[j]? = some it2 →
          lineCheck P it2 = none := by
  intro items
  induction items with
  | nil =>
    intro total acc e h
    simp [processItems] at h
  | cons it rest ih =>
    intro total acc e h
    cases hp : parseObjectId it.productId with
    | none =>
      simp only [processItems, hp, Except.error.injEq] at h
      refine ⟨0, it, by simp, by simp [lineCheck, hp, h], ?_⟩
      intro j it2 hj
      omega
    | some pid =>
      cases hf : P.find? (fun p => p.id == pid) with
      | none =>
        simp only [processItems, hp, hf, Except.error.injEq] at h
        refine ⟨0, it, by simp, by simp [lineCheck, hp, hf, h], ?_⟩
        intro j it2 hj
        omega
      | some p =>
        simp only [processItems, hp, hf] at h
        obtain ⟨i, it2, hget, hchk, hprev⟩ := ih _ _ _ h
        refine ⟨i + 1, it2, by simpa using hget, hchk, ?_⟩
        intro j it3 hj hget3
        cases j with
        | zero =>
          simp only [List.getElem?_cons_zero, Option.some.injEq] at hget3
          subst hget3
          simp [lineCheck, hp, hf]
        | succ k =>
          simp only [List.getElem?_cons_succ] at hget3
          exact hprev k it3 (by omega) hget3

theorem processItems_fails_of_bad_line (P : List Product) :
    ∀ (items : List OrderItemRequest) (total : ℚ) (acc : List StoredOrderItem),
      (∃ it ∈ items, (lineCheck P it).isSome) →
      ∃ e, processItems P total acc items = .error e := by
  intro items
  induction items with
  | nil =>
    intro total acc h
    simp at h
  | cons it rest ih =>
    intro total acc h
    cases hp : parseObjectId it.productId with
    | none => exact ⟨.invalidId it.productId, by simp [processItems, hp]⟩
    | some pid =>
      cases hf : P.find? (fun p => p.id == pid) with
      | none => exact ⟨.notFound it.productId, by simp [processItems, hp, hf]⟩
      | some p =>
        have hhead : lineCheck P it = none := by simp [lineCheck, hp, hf]
        obtain ⟨it2, hmem, hs⟩ := h
        rcases List.mem_cons.mp hmem with hb | hb
        · subst hb
          rw [hhead] at hs
          simp at hs
        · obtain ⟨e, he⟩ := ih (total + p.price * (it.qty : ℚ))
            (acc ++ [{ productId := pid, qty := it.qty, price_at_order := p.price }])
            ⟨it2, hb, hs⟩
          exact ⟨e, by simp [processItems, hp, hf, he]⟩

theorem sum_map_mul_comm (L : List StoredOrderItem) :
    (L.map (fun line => line.price_at_order * (line.qty : ℚ))).sum
      = (L.map (fun line => (line.qty : ℚ) * line.price_at_order)).sum := by
  induction L with
  | nil => rfl
  | cons a t iht => simp [iht, mul_comm]

/-- Claim C1: an order created by `POST /orders` whose lines all validate stores a
total equal to the sum over its lines of `qty * price-at-creation-time`, each stored
line's `price_at_order` being the price of the referenced product at creation time
(line i coming from request line i, with its qty); a later change to a product's
price leaves the stored orders — hence the stored total and `price_at_order` —
unchanged. -/
theorem create_order_total_spec (s : State) (req : OrderCreate) (oid : Nat) (s2 : State)
    (h : create_order s req = (Except.ok oid, s2)) :
    ∃ ord : Order,
      s2.orders = s.orders ++ [ord] ∧ ord.id = oid ∧ ord.userId = req.userId ∧
      ord.total = (ord.items.map (fun line => (line.qty : ℚ) * line.price_at_order)).sum ∧
      List.Forall₂ (fun (ir : OrderItemRequest) (line : StoredOrderItem) =>
        parseObjectId ir.productId = some line.productId ∧ line.qty = ir.qty)
        req.items ord.items ∧
      (∀ line ∈ ord.items, ∃ p ∈ s.products, p.id = line.productId ∧
        line.price_at_order = p.price) ∧
      (∀ (pid : Nat) (np : ℚ), (updatePrice s2 pid np).orders = s2.orders) := by
  unfold create_order at h
  cases hpi : processItems s.products 0 [] req.items with
  | error e => rw [hpi] at h; simp at h
  | ok pr =>
    obtain ⟨items, total⟩ := pr
    rw [hpi] at h
    simp only [Prod.mk.injEq, Except.ok.injEq] at h
    obtain ⟨hoid, hs2⟩ := h
    obtain ⟨newL, hris, hF, hsum⟩ := processItems_ok_spec s.products req.items 0 [] items total hpi
    simp only [List.nil_append] at hris
    subst hris
    refine ⟨{ id := s.nextOrderId, userId := req.userId, items := items,
              total := total, status := "pending" },
      ?_, hoid, rfl, ?_, ?_, ?_, fun pid np => rfl⟩
    · rw [← hs2]
    · show total = (items.map (fun line => (line.qty : ℚ) * line.price_at_order)).sum
      rw [hsum, sum_map_mul_comm]
      simp
    · exact hF.imp (fun a b hl =>
        ⟨(lineSpec_some_elim _ _ _ hl).1, (lineSpec_some_elim _ _ _ hl).2.1⟩)
    · intro line hline
      obtain ⟨ir, _, hl⟩ := forall₂_mem_right hF line hline
      exact (lineSpec_some_elim _ _ _ hl).2.2

/-- Claim C2: when any line of a `POST /orders` request fails (unparseable productId
or no product with that identifier), validation short-circuits on the first failing
line, the returned error is that line's error, and the store is left unchanged. -/
theorem create_order_failure_atomic (s : State) (req : OrderCreate)
    (h : ∃ it ∈ req.items, (lineCheck s.products it).isSome) :
    (create_order s req).2 = s ∧
    ∃ (e : Err) (i : Nat) (it : OrderItemRequest),
      req.items[i]? = some it ∧ lineCheck s.products it = some e ∧
      (create_order s req).1 = Except.error e ∧
      ∀ (j : Nat) (it2 : OrderItemRequest), j < i → req.items[j]? = some it2 →
        lineCheck s.products it2 = none := by
  obtain ⟨e, he⟩ := processItems_fails_of_bad_line s.products req.items 0 [] h
  obtain ⟨i, it, hget, hchk, hprev⟩ := processItems_error_spec s.products req.items 0 [] e he
  refine ⟨by simp [create_order, he], e, i, it, hget, hchk, by simp [create_order, he], hprev⟩

/-- Witness for C1: a concrete run — one product of price 2, one line of qty 3,
stored total 6. -/
theorem create_order_total_spec_witness :
    create_order stateP reqW = (Except.ok 0, statePAfter) ∧
    ∃ ord : Order,
      statePAfter.orders = stateP.orders ++ [ord] ∧ ord.id = 0 ∧ ord.userId = reqW.userId ∧
      ord.total = (ord.items.map (fun line => (line.qty : ℚ) * line.price_at_order)).sum ∧
      List.Forall₂ (fun (ir : OrderItemRequest) (line : StoredOrderItem) =>
        parseObjectId ir.productId = some line.productId ∧ line.qty = ir.qty)
        reqW.items ord.items ∧
      (∀ line ∈ ord.items, ∃ p ∈ stateP.products, p.id = line.productId ∧
        line.price_at_order = p.price) ∧
      (∀ (pid : Nat) (np : ℚ), (updatePrice statePAfter pid np).orders = statePAfter.orders) :=
  have hp : parseObjectId oidStr = some 0 := by decide
  have h : create_order stateP reqW = (Except.ok 0, statePAfter) := by
    simp only [create_order, processItems, stateP, statePAfter, reqW, prodW, hp,
      List.find?_cons_of_pos, beq_self_eq_true]
    norm_num
  ⟨h, create_order_total_spec stateP reqW 0 statePAfter h⟩

/-- Witness for C2: a request line whose productId "zz" is not a valid identifier
leaves the empty store unchanged. -/
theorem create_order_failure_atomic_witness :
    (∃ it ∈ reqBad.items, (lineCheck stateEmpty.products it).isSome) ∧
    (create_order stateEmpty reqBad).2 = stateEmpty :=
  have h : ∃ it ∈ reqBad.items, (lineCheck stateEmpty.products it).isSome := by decide
  ⟨h, (create_order_failure_atomic stateEmpty reqBad h).1⟩

/-- Claim C3: every outcome of `POST /orders` is either a 201 success carrying the
new order's id (which is the id of the last stored order), a 400 response for a
productId that does not parse as a store identifier, or a 404 response — a
400-class client error — for a well-formed productId matching no stored product. -/
theorem create_order_http_responses (s : State) (req : OrderCreate) :
    (∃ (oid : Nat) (s2 : State), create_order s req = (Except.ok oid, s2) ∧
      http_create_order s req = (201, some oid, s2) ∧
      (s2.orders.map (fun o => o.id)).getLast? = some oid) ∨
    (∃ pid : String, (create_order s req).1 = Except.error (Err.invalidId pid) ∧
      parseObjectId pid = none ∧
      http_create_order s req = (400, none, s) ∧ 400 ≤ 400 ∧ 400 < 500) ∨
    (∃ (pid : String) (n : Nat), (create_order s req).1 = Except.error (Err.notFound pid) ∧
      parseObjectId pid = some n ∧ s.products.find? (fun p => p.id == n) = none ∧
      http_create_order s req = (404, none, s) ∧ 400 ≤ 404 ∧ 404 < 500) := by
  cases hpi : processItems s.products 0 [] req.items with
  | ok pr =>
    obtain ⟨items, total⟩ := pr
    left
    refine ⟨s.nextOrderId,
      { s with
        orders := s.orders ++
          [{ id := s.nextOrderId, userId := req.userId, items := items, total := total,
             status := "pending" }],
        nextOrderId := s.nextOrderId + 1 }, ?_, ?_, ?_⟩
    · simp [create_order, hpi]
    · simp [http_create_order, create_order, hpi]
    · simp [List.getLast?_concat]
  | error e =>
    obtain ⟨i, it, hget, hchk, hprev⟩ := processItems_error_spec s.products req.items 0 [] e hpi
    rcases lineCheck_some_cases s.products it e hchk with ⟨hE, hparse⟩ | ⟨n, hE, hparse, hfind⟩
    · refine Or.inr (Or.inl ⟨it.productId, by simp [create_order, hpi, hE], hparse, ?_, le_rfl,
        by omega⟩)
      simp [http_create_order, create_order, hpi, hE, statusOf]
    · refine Or.inr (Or.inr ⟨it.productId, n, by simp [create_order, hpi, hE], hparse, hfind,
        ?_, by omega, by omega⟩)
      simp [http_create_order, create_order, hpi, hE, statusOf]

/-- Claim C4: in every list response (products and orders alike), `page.limit` is the
number of items actually returned; `page.next` is the string of `offset + limit`,
present exactly when the returned item count equals the requested limit, else null;
`page.previous` is the string of `offset - limit` when that difference is non-negative,
null when `offset = 0`, and the literal string "-10" in every other underflow case. -/
theorem pagination_metadata_spec (s : State) (nameF sizeF : Option String)
    (user_id : String) (limit offset : Nat) :
    (list_products s nameF sizeF limit offset).page.limit
      = (list_products s nameF sizeF limit offset).data.length ∧
    (get_user_orders s user_id limit offset).page.limit
      = (get_user_orders s user_id limit offset).data.length ∧
    (list_products s nameF sizeF limit offset).page
      = mkPageInfo (list_products s nameF sizeF limit offset).data.length limit offset ∧
    (get_user_orders s user_id limit offset).page
      = mkPageInfo (get_user_orders s user_id limit offset).data.length limit offset ∧
    (∀ count : Nat, (mkPageInfo count limit offset).next
      = if count = limit then some (toString ((offset : Int) + (limit : Int))) else none) ∧
    (∀ count : Nat, (mkPageInfo count limit offset).previous
      = if offset = 0 then none
        else if limit ≤ offset then some (toString ((offset : Int) - (limit : Int)))
        else some "-10") := by
  refine ⟨rfl, rfl, rfl, rfl, ?_, ?_⟩
  · intro count
    by_cases h : count = limit <;> simp [mkPageInfo, h]
  · intro count
    by_cases h0 : offset = 0
    · simp [mkPageInfo, h0]
    · by_cases hle : limit ≤ offset
      · have hz : (0 : Int) ≤ (offset : Int) - (limit : Int) := by
          omega
        simp [mkPageInfo, h0, hz, hle]
      · have hz : ¬ ((0 : Int) ≤ (offset : Int) - (limit : Int)) := by
          omega
        have hts : toString (-10 : Int) = "-10" := by decide
        simp [mkPageInfo, h0, hz, hle, hts]

/-- Claim C5: product creation fails with a validation error exactly when
`price <= 0` or some sizes entry has a negative quantity; for `price > 0` and all
quantities non-negative (an empty sizes sequence included) it succeeds, storing the
document and returning a fresh identifier distinct from every previously assigned
one (the store invariant being that every stored id is below the id counter). -/
theorem create_product_spec (s : State) (p : ProductCreate)
    (hinv : ∀ q ∈ s.products, q.id < s.nextProductId) :
    (create_product s p = Except.error Err.validationError ↔
      (p.price ≤ 0 ∨ ∃ e ∈ p.sizes, e.quantity < 0)) ∧
    ((0 < p.price ∧ ∀ e ∈ p.sizes, 0 ≤ e.quantity) →
      ∃ s2 : State, create_product s p = Except.ok (s.nextProductId, s2) ∧
        (∀ q ∈ s.products, q.id ≠ s.nextProductId) ∧
        s2.products = s.products ++
          [{ id := s.nextProductId, name := p.name, price := p.price, sizes := p.sizes }] ∧
        s2.nextProductId = s.nextProductId + 1) := by
  have hval : validProductCreate p = true ↔ (0 < p.price ∧ ∀ e ∈ p.sizes, 0 ≤ e.quantity) := by
    simp [validProductCreate, List.all_eq_true]
  by_cases hv : validProductCreate p = true
  · obtain ⟨hpos, hq⟩ := hval.mp hv
    refine ⟨⟨fun h => ?_, fun h => ?_⟩, fun _ => ?_⟩
    · simp [create_product, hv] at h
    · rcases h with h | ⟨e, he, hlt⟩
      · exact absurd hpos (not_lt.mpr h)
      · exact absurd (hq e he) (by omega)
    · refine ⟨{ s with
          products := s.products ++
            [{ id := s.nextProductId, name := p.name, price := p.price, sizes := p.sizes }],
          nextProductId := s.nextProductId + 1 }, ?_, ?_, rfl, rfl⟩
      · simp [create_product, hv]
      · intro q hq2
        exact Nat.ne_of_lt (hinv q hq2)
  · have hbad : ¬ (0 < p.price ∧ ∀ e ∈ p.sizes, 0 ≤ e.quantity) :=
      fun hgood => hv (hval.mpr hgood)
    push_neg at hbad
    refine ⟨⟨fun _ => ?_, fun _ => ?_⟩, fun hgood => absurd (hval.mpr hgood) hv⟩
    · by_cases hp : 0 < p.price
      · obtain ⟨e, he, hlt⟩ := hbad hp
        exact Or.inr ⟨e, he, by omega⟩
      · exact Or.inl (le_of_not_lt hp)
    · simp only [Bool.not_eq_true] at hv
      simp [create_product, hv]

/-- Witness for C5: over the empty store (where the id invariant holds trivially),
the validation characterization holds for a concrete valid body. -/
theorem create_product_spec_witness :
    (∀ q ∈ stateEmpty.products, q.id < stateEmpty.nextProductId) ∧
    (create_product stateEmpty pcW = Except.error Err.validationError ↔
      (pcW.price ≤ 0 ∨ ∃ e ∈ pcW.sizes, e.quantity < 0)) :=
  have hinv : ∀ q ∈ stateEmpty.products, q.id < stateEmpty.nextProductId := by
    simp [stateEmpty]
  ⟨hinv, (create_product_spec stateEmpty pcW hinv).1⟩

theorem enrichOrder_some_elim (s : State) (o : Order) (r : OrderResponse)
    (h : enrichOrder s o = some r) :
    r.id = o.id ∧ r.total = o.total ∧ r.items = enrichItems s.products o.items ∧
      r.items ≠ [] := by
  simp only [enrichOrder] at h
  by_cases he : (enrichItems s.products o.items).isEmpty = true
  · rw [if_pos he] at h
    cases h
  · rw [if_neg he] at h
    have hr := (Option.some.inj h).symm
    subst hr
    refine ⟨rfl, rfl, rfl, ?_⟩
    simpa [List.isEmpty_iff] using he

theorem filterMap_enrich_ids_sublist (s : State) :
    ∀ l : List Order,
      ((l.filterMap (enrichOrder s)).map (fun r => r.id)).Sublist
        (l.map (fun o => o.id)) := by
  intro l
  induction l with
  | nil => simp
  | cons o t iht =>
    cases he : enrichOrder s o with
    | none =>
      rw [List.filterMap_cons_none he, List.map_cons]
      exact iht.cons _
    | some r =>
      rw [List.filterMap_cons_some he, List.map_cons, List.map_cons,
        (enrichOrder_some_elim s o r he).1]
      exact iht.cons₂ _

theorem mem_lookupDetails_elim (P : List Product) (it : StoredOrderItem)
    (e : OrderItemResponse) (h : e ∈ lookupDetails P it) :
    ∃ p ∈ P, p.id = it.productId ∧
      e.productDetails.id = p.id ∧ e.productDetails.name = p.name ∧ e.qty = it.qty := by
  unfold lookupDetails at h
  obtain ⟨p, hpf, hpe⟩ := List.mem_map.mp h
  obtain ⟨hpP, hpid⟩ := List.mem_filter.mp hpf
  exact ⟨p, hpP, by simpa using hpid, by rw [← hpe], by rw [← hpe], by rw [← hpe]⟩

theorem lookupDetails_eq_nil (P : List Product) (it : StoredOrderItem)
    (h : ∀ p ∈ P, p.id ≠ it.productId) : lookupDetails P it = [] := by
  have hf : P.filter (fun p => p.id == it.productId) = [] :=
    List.filter_eq_nil_iff.mpr (fun p hp => by simpa using h p hp)
  simp [lookupDetails, hf]

theorem enrichItems_append (P : List Product) (a b : List StoredOrderItem) :
    enrichItems P (a ++ b) = enrichItems P a ++ enrichItems P b := by
  simp [enrichItems]

theorem filter_id_len_le_one (P : List Product) (hN : (P.map (fun p => p.id)).Nodup)
    (pid : Nat) : (P.filter (fun p => p.id == pid)).length ≤ 1 := by
  induction P with
  | nil => simp
  | cons p t iht =>
    simp only [List.map_cons, List.nodup_cons] at hN
    obtain ⟨hnot, hN2⟩ := hN
    by_cases hid : (p.id == pid) = true
    · have hpid : p.id = pid := by simpa using hid
      have ht : t.filter (fun q => q.id == pid) = [] := by
        apply List.filter_eq_nil_iff.mpr
        intro q hq hbq
        apply hnot
        have hqid : q.id = pid := by simpa using hbq
        rw [hpid, ← hqid]
        exact List.mem_map_of_mem _ hq
      simp [List.filter_cons, hid, ht]
    · simp only [List.filter_cons, hid, if_false, Bool.false_eq_true]
      exact iht hN2

theorem enrichItems_pairs_sublist (P : List Product) (hN : (P.map (fun p => p.id)).Nodup) :
    ∀ items : List StoredOrderItem,
      ((enrichItems P items).map (fun e => (e.productDetails.id, e.qty))).Sublist
        (items.map (fun it => (it.productId, it.qty))) := by
  intro items
  induction items with
  | nil => simp [enrichItems]
  | cons it rest iht =>
    have hstep : enrichItems P (it :: rest) = lookupDetails P it ++ enrichItems P rest := by
      simp [enrichItems]
    rw [hstep, List.map_append, List.map_cons]
    rcases hfl : P.filter (fun p => p.id == it.productId) with _ | ⟨p, t⟩
    · have hnil : lookupDetails P it = [] := by simp [lookupDetails, hfl]
      rw [hnil]
      simpa using iht.cons _
    · have hlen := filter_id_len_le_one P hN it.productId
      rw [hfl] at hlen
      have ht : t = [] := by
        cases t with
        | nil => rfl
        | cons a b => simp at hlen
      subst ht
      have hpid : p.id = it.productId := by
        have hp : p ∈ P.filter (fun p => p.id == it.productId) := by
          rw [hfl]
          exact List.mem_cons_self _ _
        simpa using (List.mem_filter.mp hp).2
      have hL : lookupDetails P it =
          [{ productDetails := { id := p.id, name := p.name }, qty := it.qty }] := by
        simp [lookupDetails, hfl]
      rw [hL]
      simp only [List.map_cons, List.map_nil, List.singleton_append, hpid]
      exact iht.cons₂ _

theorem mem_enrichItems_elim (P : List Product) (items : List StoredOrderItem)
    (e : OrderItemResponse) (h : e ∈ enrichItems P items) :
    ∃ it ∈ items, ∃ p ∈ P, p.id = it.productId ∧
      e.productDetails.id = p.id ∧ e.productDetails.name = p.name ∧ e.qty = it.qty := by
  unfold enrichItems at h
  obtain ⟨it, hit, hel⟩ := List.mem_flatMap.mp h
  obtain ⟨p, hpP, hrest⟩ := mem_lookupDetails_elim P it e hel
  exact ⟨it, hit, p, hpP, hrest⟩

theorem mem_userOrdersPage_elim (s : State) (user_id : String) (limit offset : Nat)
    (o : Order) (h : o ∈ userOrdersPage s user_id limit offset) :
    o ∈ s.orders ∧ o.userId = user_id := by
  unfold userOrdersPage at h
  have h2 : o ∈ (s.orders.filter (fun o => o.userId == user_id)).mergeSort orderLE :=
    ((List.take_sublist _ _).trans (List.drop_sublist _ _)).subset h
  have h3 := List.mem_filter.mp (List.mem_mergeSort.mp h2)
  exact ⟨h3.1, by simpa using h3.2⟩

theorem isPrefixOf_iff_exists (l₁ l₂ : List Char) :
    l₁.isPrefixOf l₂ = true ↔ ∃ t, l₁ ++ t = l₂ := by
  rw [ List.isPrefixOf_iff_prefix]
  exact Iff.rfl

theorem listContainsSub_iff (pat : List Char) :
    ∀ hay : List Char, listContainsSub pat hay = true ↔ ∃ l r, hay = l ++ pat ++ r := by
  intro hay
  induction hay with
  | nil =>
    constructor
    · intro h
      have hpat : pat = [] := by simpa [listContainsSub] using h
      exact ⟨[], [], by simp [hpat]⟩
    · rintro ⟨l, r, hl⟩
      obtain ⟨h1, h2⟩ := List.append_eq_nil.mp hl.symm
      obtain ⟨h3, h4⟩ := List.append_eq_nil.mp h1
      simp [listContainsSub, h4]
  | cons c t iht =>
    constructor
    · intro h
      simp only [listContainsSub, Bool.or_eq_true] at h
      rcases h with h | h
      · obtain ⟨r, hr⟩ := (isPrefixOf_iff_exists _ _).mp h
        exact ⟨[], r, by simp [hr]⟩
      · obtain ⟨l, r, hl⟩ := iht.mp h
        exact ⟨c :: l, r, by simp [hl]⟩
    · rintro ⟨l, r, hl⟩
      simp only [listContainsSub, Bool.or_eq_true]
      cases l with
      | nil =>
        exact Or.inl ((isPrefixOf_iff_exists _ _).mpr ⟨r, by simp [hl]⟩)
      | cons c2 l2 =>
        simp only [List.cons_append, List.cons.injEq] at hl
        exact Or.inr (iht.mpr ⟨l2, r, hl.2⟩)

theorem containsCI_iff (hay pat : String) :
    containsCI hay pat = true ↔
      ∃ l r, (strLower hay).data = l ++ (strLower pat).data ++ r :=
  listContainsSub_iff _ _

/-- Claim C6: product listing returns exactly the stored products passing the
name filter (case-insensitive substring, when given and non-empty) and the size
filter (some sizes entry with that exact size, when given and non-empty), ordered
by identifier ascending, skipping `offset` items and returning at most `limit`
items.  Writing `sorted` for the id-ascending sort of the matching products:
membership in `sorted` is exactly "stored and matching both filters", the page
holds `min limit (sorted.length - offset)` items, and for every `i < limit` the
page's i-th entry is the projection of `sorted`'s `offset + i`-th element — so for
every offset, every matching product whose rank lies in the window is returned,
and nothing else is. -/
theorem list_products_filter_spec (s : State) (nameF sizeF : Option String)
    (limit offset : Nat) :
    (∀ item ∈ (list_products s nameF sizeF limit offset).data,
      ∃ p ∈ s.products, item.id = p.id ∧ item.name = p.name ∧ item.price = p.price ∧
        (∀ f, nameF = some f → f ≠ "" →
          ∃ l r, (strLower p.name).data = l ++ (strLower f).data ++ r) ∧
        (∀ f, sizeF = some f → f ≠ "" → ∃ e ∈ p.sizes, e.size = f)) ∧
    ((list_products s nameF sizeF limit offset).data.Pairwise (fun a b => a.id ≤ b.id)) ∧
    (∀ p : Product,
      p ∈ (s.products.filter
          (fun p => matchesName nameF p && matchesSize sizeF p)).mergeSort productLE
        ↔ (p ∈ s.products ∧ matchesName nameF p = true ∧ matchesSize sizeF p = true)) ∧
    ((list_products s nameF sizeF limit offset).data.length
      = min limit
          (((s.products.filter
              (fun p => matchesName nameF p && matchesSize sizeF p)).mergeSort
                productLE).length - offset)) ∧
    (∀ (i : Nat) (p : Product),
      ((s.products.filter
          (fun p => matchesName nameF p && matchesSize sizeF p)).mergeSort
            productLE)[offset + i]? = some p →
      i < limit →
      (list_products s nameF sizeF limit offset).data[i]?
        = some { id := p.id, name := p.name, price := p.price }) := by
  refine ⟨?_, ?_, ?_, ?_, ?_⟩
  · intro item hitem
    simp only [list_products, List.mem_map] at hitem
    obtain ⟨p, hp, hview⟩ := hitem
    have hp2 : p ∈ (s.products.filter
        (fun p => matchesName nameF p && matchesSize sizeF p)).mergeSort productLE :=
      ((List.take_sublist _ _).trans (List.drop_sublist _ _)).subset hp
    have hp3 := List.mem_filter.mp (List.mem_mergeSort.mp hp2)
    obtain ⟨hmem, hpred⟩ := hp3
    rw [Bool.and_eq_true] at hpred
    obtain ⟨hmn, hms⟩ := hpred
    refine ⟨p, hmem, by rw [← hview], by rw [← hview], by rw [← hview], ?_, ?_⟩
    · intro f hf hne
      rw [hf] at hmn
      simp only [matchesName, if_neg hne] at hmn
      exact (containsCI_iff _ _).mp hmn
    · intro f hf hne
      rw [hf] at hms
      simp only [matchesSize, if_neg hne, List.any_eq_true, beq_iff_eq] at hms
      exact hms
  · simp only [list_products]
    rw [List.pairwise_map]
    exact pairwise_window productLE _
      (fun a b h => by simpa [productLE] using h) productLE_trans productLE_total _ _ _
  · intro p
    rw [List.mem_mergeSort, List.mem_filter, Bool.and_eq_true]
  · simp only [list_products, List.length_map, List.length_take, List.length_drop]
  · intro i p hp hi
    simp only [list_products, List.getElem?_map, List.getElem?_take, if_pos hi,
      List.getElem?_drop, hp, Option.map_some]
    rfl

/-- Claim C9: `POST /orders` with an empty items list is not rejected: it succeeds
with status 201 and persists an order with no line items, total 0 and status
"pending". -/
theorem create_order_empty_items (s : State) (user_id : String) :
    create_order s { userId := user_id, items := [] } =
      (Except.ok s.nextOrderId,
        { s with
          orders := s.orders ++
            [{ id := s.nextOrderId, userId := user_id, items := [], total := 0,
               status := "pending" }],
          nextOrderId := s.nextOrderId + 1 }) ∧
    (http_create_order s { userId := user_id, items := [] }).1 = 201 :=
  ⟨rfl, rfl⟩

/-- Claim C7 (code bug): the aggregation of `GET /orders/{userId}` ends in `$group`
with no subsequent `$sort`, and MongoDB leaves `$group` output order undefined, so
at a store holding two orders for the user the descending output [order 1, order 0]
is an admissible result of the pipeline — violating the claimed identifier-ascending
order of orders across the page. -/
theorem get_user_orders_group_order_bug :
    groupOutputs stateO2 "u1" 10 0 [respB, respA] ∧
    ¬ ([respB, respA].Pairwise (fun (a b : OrderResponse) => a.id ≤ b.id)) := by
  constructor
  · unfold groupOutputs
    have hsorted : [ordA, ordB].Pairwise (fun a b => orderLE a b = true) := by
      simp [ordA, ordB, orderLE]
    have hfil : stateO2.orders.filter (fun o => o.userId == "u1") = [ordA, ordB] := by
      rfl
    have hpage : userOrdersPage stateO2 "u1" 10 0 = [ordA, ordB] := by
      unfold userOrdersPage
      rw [hfil, List.mergeSort_of_sorted hsorted]
      rfl
    rw [hpage]
    have hA : enrichOrder stateO2 ordA = some respA := by
      simp [enrichOrder, enrichItems, lookupDetails, stateO2, ordA, prodW, respA]
    have hB : enrichOrder stateO2 ordB = some respB := by
      simp [enrichOrder, enrichItems, lookupDetails, stateO2, ordB, prodW, respB]
    rw [List.filterMap_cons_some hA, List.filterMap_cons_some hB, List.filterMap_nil]
    exact List.Perm.swap respA respB []
  · intro h
    obtain ⟨h1, _⟩ := List.pairwise_cons.mp h
    have hle := h1 respA (List.mem_cons_self _ _)
    simp [respA, respB] at hle

/-- Claim C8: `GET /orders/{userId}` returns only orders whose stored userId equals
the requested one, the raw page being the identifier-ascending sort of that user's
orders windowed by offset/limit, and at most `limit` records are returned. -/
theorem get_user_orders_user_filter (s : State) (user_id : String) (limit offset : Nat) :
    (∀ r ∈ (get_user_orders s user_id limit offset).data,
      ∃ o ∈ s.orders, o.userId = user_id ∧ o.id = r.id) ∧
    (∀ o ∈ userOrdersPage s user_id limit offset, o ∈ s.orders ∧ o.userId = user_id) ∧
    ((userOrdersPage s user_id limit offset).Pairwise (fun a b => a.id ≤ b.id)) ∧
    ((get_user_orders s user_id limit offset).data.length ≤ limit) ∧
    ((get_user_orders s user_id limit offset).data
      = (userOrdersPage s user_id limit offset).filterMap (enrichOrder s)) := by
  refine ⟨?_, fun o ho => mem_userOrdersPage_elim s user_id limit offset o ho,
    pairwise_userOrdersPage s user_id limit offset, ?_, rfl⟩
  · intro r hr
    obtain ⟨o, hopage, he⟩ := List.mem_filterMap.mp hr
    obtain ⟨hoS, hou⟩ := mem_userOrdersPage_elim s user_id limit offset o hopage
    exact ⟨o, hoS, hou, ((enrichOrder_some_elim s o r he).1).symm⟩
  · calc (get_user_orders s user_id limit offset).data.length
        ≤ (userOrdersPage s user_id limit offset).length :=
          List.length_filterMap_le _ _
      _ ≤ limit := by
          unfold userOrdersPage
          exact List.length_take_le _ _

/-- Claim C10: in `GET /orders/{userId}`, a line item referencing no existing
product resolves to an empty lookup and is silently dropped from the enriched
items; an order all of whose lines dangle is dropped from the page entirely
(every returned record has at least one resolvable line, and every returned line
is resolvable); the handler leaves the stored state unchanged. -/
theorem dangling_items_policy (s : State) (user_id : String) (limit offset : Nat) :
    (∀ it : StoredOrderItem, (∀ p ∈ s.products, p.id ≠ it.productId) →
      lookupDetails s.products it = []) ∧
    (∀ (its1 its2 : List StoredOrderItem) (it : StoredOrderItem),
      (∀ p ∈ s.products, p.id ≠ it.productId) →
      enrichItems s.products (its1 ++ it :: its2) = enrichItems s.products (its1 ++ its2)) ∧
    (∀ o : Order, (∀ it ∈ o.items, ∀ p ∈ s.products, p.id ≠ it.productId) →
      enrichOrder s o = none) ∧
    (∀ r ∈ (get_user_orders s user_id limit offset).data,
      (∃ o ∈ s.orders, o.id = r.id ∧ ∃ it ∈ o.items, ∃ p ∈ s.products,
        p.id = it.productId) ∧
      (∀ e ∈ r.items, ∃ p ∈ s.products, p.id = e.productDetails.id)) ∧
    (http_get_user_orders s user_id limit offset).2 = s := by
  refine ⟨fun it h => lookupDetails_eq_nil s.products it h, ?_, ?_, ?_, rfl⟩
  · intro its1 its2 it h
    rw [enrichItems_append, enrichItems_append]
    have hstep : enrichItems s.products (it :: its2)
        = lookupDetails s.products it ++ enrichItems s.products its2 := by
      simp [enrichItems]
    rw [hstep, lookupDetails_eq_nil s.products it h, List.nil_append]
  · intro o h
    have hnil : enrichItems s.products o.items = [] := by
      unfold enrichItems
      apply List.flatMap_eq_nil_iff.mpr
      intro it hit
      exact lookupDetails_eq_nil s.products it (h it hit)
    simp [enrichOrder, hnil]
  · intro r hr
    obtain ⟨o, hopage, he⟩ := List.mem_filterMap.mp hr
    obtain ⟨hid, htot, hitems, hne⟩ := enrichOrder_some_elim s o r he
    obtain ⟨hoS, hou⟩ := mem_userOrdersPage_elim s user_id limit offset o hopage
    constructor
    · obtain ⟨e, hee⟩ := List.exists_mem_of_ne_nil _ hne
      rw [hitems] at hee
      obtain ⟨it, hit, p, hpP, hpid, _, _, _⟩ :=
        mem_enrichItems_elim s.products o.items e hee
      exact ⟨o, hoS, hid.symm, it, hit, p, hpP, hpid⟩
    · intro e hee
      rw [hitems] at hee
      obtain ⟨it, hit, p, hpP, hpid, heid, _, _⟩ :=
        mem_enrichItems_elim s.products o.items e hee
      exact ⟨p, hpP, heid.symm⟩

end ECom
